import Mathlib

/-!
Shallow embedding of the numeric core of `cloudpoint_data_process`:

* `PlyToLocal` embeds `ply_to_local.py` (`convert_ply_to_local` and its helper
  `_floor_base`): the global-to-local shift selector.  The float64 arithmetic of
  the source is modelled by exact rational arithmetic; the single `astype(np.float32)`
  storage downcast at the end is modelled by an explicit parameter `f32 : ℚ → ℚ`.
* `LocalPlyToEcef` embeds `local_ply_2_ecef_las.py` (`local_ply_to_ecef_las`):
  the ENU-to-ECEF converter over real numbers, and the RGB channel normalizer
  over exact rationals.
-/

deriving instance DecidableEq for Except

namespace PlyToLocal

/-- One named property ("column") of the PLY vertex element, as read by
`plyfile`: its name, its numpy dtype string, and its per-point values. -/
structure PlyProp where
  name : String
  dtype : String
  values : List ℚ
deriving DecidableEq

/-- The error taxonomy of `convert_ply_to_local`: the `ValueError`s raised at
lines 61 (missing coordinate fields), 70 (no points), 82 and 93 and 101
(bad parameters) of `ply_to_local.py`. -/
inductive ConvertError where
  | missingField (fields : List String)
  | emptyInput
  | invalidParameter
deriving DecidableEq

/-- The data a successful run hands to the writer: the new vertex array
(built at lines 107-119) and the shift returned at line 144. -/
structure ConvertResult where
  vertexArray : List PlyProp
  shift : ℚ × ℚ × ℚ
deriving DecidableEq

/-- `vertex[nm]`: the values of the property named `nm` (empty when absent;
the source only reads properties it has checked are present). -/
def getProp (vertex : List PlyProp) (nm : String) : List ℚ :=
  match vertex.find? (fun p => p.name == nm) with
  | some p => p.values
  | none => []

/-- `vertex[nm].dtype` (empty string when absent). -/
def getDtype (vertex : List PlyProp) (nm : String) : String :=
  match vertex.find? (fun p => p.name == nm) with
  | some p => p.dtype
  | none => ""

/-- `np.vstack((x, y, z)).T`: the rows of the N-by-3 point matrix. -/
def zip3 {α : Type} (xs ys zs : List α) : List (α × α × α) :=
  List.zipWith (fun a q => (a, q.1, q.2)) xs (ys.zip zs)

/-- `np.mean(arr)` over exact rationals. -/
def listMean (arr : List ℚ) : ℚ := arr.sum / (arr.length : ℚ)

/-- The value `float(np.floor(np.mean(arr) / base) * base)` (line 83). -/
def floorBaseVal (arr : List ℚ) (base : ℚ) : ℚ :=
  ((Int.floor (listMean arr / base) : ℤ) : ℚ) * base

/-- `_floor_base` (lines 80-83): raises unless `base > 0`, else
`floor(mean(arr)/base)*base`. -/
def floorBase (arr : List ℚ) (base : ℚ) : Except ConvertError ℚ :=
  if base ≤ 0 then .error ConvertError.invalidParameter
  else .ok (floorBaseVal arr base)

/-- The required coordinate fields (line 58). -/
def requiredFields : List String := ["x", "y", "z"]

/-- `required - set(prop_names)` (line 60), as the sublist of `required`
absent from the property names. -/
def missingOf (vertex : List PlyProp) : List String :=
  requiredFields.filter (fun f => !((vertex.map PlyProp.name).contains f))

/-- `points_global = np.vstack((x, y, z)).T` (line 67): the rows of the
coordinate columns of a vertex array. -/
def pointsOf (vertex : List PlyProp) : List (ℚ × ℚ × ℚ) :=
  zip3 (getProp vertex "x") (getProp vertex "y") (getProp vertex "z")

/-- The shift computation (lines 78-101): `auto` applies `_floor_base` per
axis, `manual` demands exactly three values, `first_point` takes row 0, and
any other mode raises. -/
def computeShift (x y z : List ℚ) (p0 : ℚ × ℚ × ℚ) (mode : String)
    (ms : Option (List ℚ)) (base : ℚ) : Except ConvertError (ℚ × ℚ × ℚ) :=
  if mode = "auto" then do
    let sx ← floorBase x base
    let sy ← floorBase y base
    let sz ← floorBase z base
    pure (sx, sy, sz)
  else if mode = "manual" then
    match ms with
    | some [a, b, c] => .ok (a, b, c)
    | _ => .error ConvertError.invalidParameter
  else if mode = "first_point" then .ok p0
  else .error ConvertError.invalidParameter

/-- `points_global - shift`, one row (line 104). -/
def subPoint (shift p : ℚ × ℚ × ℚ) : ℚ × ℚ × ℚ :=
  (p.1 - shift.1, p.2.1 - shift.2.1, p.2.2 - shift.2.2)

/-- One output column (lines 107-119): a coordinate property is rebuilt with
dtype `f4` from the local points through the float32 storage cast, any other
property is copied through unchanged. -/
def coordColumn (pl : List (ℚ × ℚ × ℚ)) (f32 : ℚ → ℚ) (p : PlyProp) : PlyProp :=
  if p.name = "x" then ⟨"x", "f4", pl.map (fun q => f32 q.1)⟩
  else if p.name = "y" then ⟨"y", "f4", pl.map (fun q => f32 q.2.1)⟩
  else if p.name = "z" then ⟨"z", "f4", pl.map (fun q => f32 q.2.2)⟩
  else p

/-- The output vertex array (lines 107-119), column by column in the input
property order. -/
def mkVertexArray (vertex : List PlyProp) (pl : List (ℚ × ℚ × ℚ))
    (f32 : ℚ → ℚ) : List PlyProp :=
  vertex.map (coordColumn pl f32)

/-- The tail of the pipeline after the shift computation: a raised error
propagates; a shift yields the subtraction of line 104 and the output
array of lines 107-119. -/
def afterShift (vertex : List PlyProp) (pg : List (ℚ × ℚ × ℚ)) (f32 : ℚ → ℚ) :
    Except ConvertError (ℚ × ℚ × ℚ) → Except ConvertError ConvertResult
  | .error e => .error e
  | .ok shift => .ok ⟨mkVertexArray vertex (pg.map (subPoint shift)) f32, shift⟩

/-- The pipeline from the emptiness check of lines 69-70 on: an empty point
array raises, else the shift of lines 78-101 is computed and applied. -/
def afterPoints (vertex : List PlyProp) (mode : String) (ms : Option (List ℚ))
    (base : ℚ) (f32 : ℚ → ℚ) : List (ℚ × ℚ × ℚ) → Except ConvertError ConvertResult
  | [] => .error ConvertError.emptyInput
  | p0 :: rest =>
    afterShift vertex (p0 :: rest) f32
      (computeShift (getProp vertex "x") (getProp vertex "y") (getProp vertex "z")
        p0 mode ms base)

/-- `convert_ply_to_local` (lines 29-144), from the vertex element to the
written vertex array and the returned shift.  `f32` models the
`astype(np.float32)` storage cast; all other arithmetic is the exact model
of the float64 computation. -/
def convert_ply_to_local (vertex : List PlyProp) (mode : String)
    (ms : Option (List ℚ)) (base : ℚ) (f32 : ℚ → ℚ) :
    Except ConvertError ConvertResult :=
  if missingOf vertex = [] then afterPoints vertex mode ms base f32 (pointsOf vertex)
  else .error (ConvertError.missingField (missingOf vertex))

/-- A small concrete vertex element: one point (1500, -1, 10). -/
def sampleVertex : List PlyProp :=
  [⟨"x", "f8", [1500]⟩, ⟨"y", "f8", [-1]⟩, ⟨"z", "f8", [10]⟩]

/-- A concrete vertex element with an auxiliary color property. -/
def sampleVertexRgb : List PlyProp :=
  [⟨"x", "f8", [1500]⟩, ⟨"y", "f8", [-1]⟩, ⟨"z", "f8", [10]⟩, ⟨"red", "u1", [7]⟩]

/-- A concrete vertex element with all coordinate fields but no points. -/
def emptyVertex : List PlyProp :=
  [⟨"x", "f8", []⟩, ⟨"y", "f8", []⟩, ⟨"z", "f8", []⟩]

/-- A concrete vertex element lacking the `z` field. -/
def missingZVertex : List PlyProp := [⟨"x", "f8", [1]⟩, ⟨"y", "f8", [2]⟩]

end PlyToLocal

namespace LocalPlyToEcef

/-- A color channel as read from the PLY: either a floating-point dtype
(values modelled exactly as rationals) or an integer dtype. -/
inductive ChannelData where
  | floatData (vals : List ℚ)
  | intData (vals : List ℤ)
deriving DecidableEq

/-- `val.max()` of a nonempty numpy array (0 as a junk default on the empty
array, which the source never reaches: channels have one entry per point). -/
def listMax (vals : List ℚ) : ℚ := vals.foldl max (vals.headD 0)

/-- `np.clip(v, 0, 255)` on one element. -/
def clip255 (v : ℚ) : ℚ := min 255 (max 0 v)

/-- `astype(np.uint8)` on a clipped value: numpy truncates the float toward
zero; after the clip the value is nonnegative, so that is the floor. -/
def toU8 (v : ℚ) : ℕ := (Int.floor v).toNat

/-- The RGB channel normalization of `local_ply_2_ecef_las.py` lines 89-92:
a floating channel is scaled by 255 when its maximum is at most 1.01, then
clipped to [0, 255] and truncated to uint8; an integer channel is clipped
and cast. -/
def normalizeChannel : ChannelData → List ℕ
  | ChannelData.floatData vals =>
      (if listMax vals ≤ 101 / 100 then vals.map (fun v => v * 255) else vals).map
        (fun v => toU8 (clip255 v))
  | ChannelData.intData vals => vals.map (fun v => (min 255 (max 0 v)).toNat)

/-- The vertex element as the converter reads it: the numeric (float64) view
of each named property, and the raw dtype view of the color channels. -/
structure EcefInput where
  props : List (String × List ℝ)
  colors : List (String × ChannelData)

/-- What the converter hands to the LAS writer: the ECEF points and the
normalized RGB channels. -/
structure EcefOutput where
  points : List (ℝ × ℝ × ℝ)
  rgb : List (String × List ℕ)

/-- The failures of `local_ply_to_ecef_las`: the `KeyError` from
`vertex[...]` on a missing property, and the `ValueError` from
`x_ecef.min()` (line 68) on a zero-size array. -/
inductive EcefError where
  | keyError (field : String)
  | emptyReduction
deriving DecidableEq

/-- WGS84 semi-major axis (line 36). -/
def a_wgs84 : ℝ := 6378137

/-- WGS84 first eccentricity squared (line 37). -/
noncomputable def e2_wgs84 : ℝ := 669437999014 / 10 ^ 14

/-- `np.radians` (lines 39-40). -/
noncomputable def radiansOf (deg : ℝ) : ℝ := deg * Real.pi / 180

/-- Prime-vertical radius `N0 = a / sqrt(1 - e2 * sin(lat0)^2)` (line 46). -/
noncomputable def nRad (lat : ℝ) : ℝ :=
  a_wgs84 / Real.sqrt (1 - e2_wgs84 * Real.sin (radiansOf lat) ^ 2)

/-- The origin ECEF position (lines 46-50). -/
noncomputable def originEcef (lon lat hgt : ℝ) : ℝ × ℝ × ℝ :=
  ((nRad lat + hgt) * Real.cos (radiansOf lat) * Real.cos (radiansOf lon),
   (nRad lat + hgt) * Real.cos (radiansOf lat) * Real.sin (radiansOf lon),
   (nRad lat * (1 - e2_wgs84) + hgt) * Real.sin (radiansOf lat))

/-- The rotation matrix `R` of lines 57-61 applied to one ENU offset:
the rows of `R @ [east, north, up]` written out. -/
noncomputable def rotApply (lon lat : ℝ) (p : ℝ × ℝ × ℝ) : ℝ × ℝ × ℝ :=
  (-Real.sin (radiansOf lon) * p.1 + Real.cos (radiansOf lon) * p.2.1 + 0 * p.2.2,
   -Real.sin (radiansOf lat) * Real.cos (radiansOf lon) * p.1 +
     -(Real.sin (radiansOf lat) * Real.sin (radiansOf lon)) * p.2.1 +
     Real.cos (radiansOf lat) * p.2.2,
   Real.cos (radiansOf lat) * Real.cos (radiansOf lon) * p.1 +
     Real.cos (radiansOf lat) * Real.sin (radiansOf lon) * p.2.1 +
     Real.sin (radiansOf lat) * p.2.2)

/-- Componentwise 3-vector addition (`origin_ecef.reshape(3, 1) + ...`,
line 64). -/
def addVec (p q : ℝ × ℝ × ℝ) : ℝ × ℝ × ℝ := (p.1 + q.1, p.2.1 + q.2.1, p.2.2 + q.2.2)

/-- The channels the writer looks for, in order (line 86). -/
def rgbNames : List String := ["red", "green", "blue"]

/-- Lines 85-94: each of red, green, blue that is present in the vertex is
normalized and written. -/
def rgbOutputs (colors : List (String × ChannelData)) : List (String × List ℕ) :=
  rgbNames.filterMap (fun c => (colors.lookup c).map (fun d => (c, normalizeChannel d)))

/-- `local_ply_to_ecef_las` (lines 8-98): read the coordinate properties
(`KeyError` when absent), convert every ENU point to ECEF, fail on a
zero-size array at the `x_ecef.min()` reduction, and hand the points and
the normalized RGB channels to the LAS writer. -/
noncomputable def local_ply_to_ecef_las (inp : EcefInput)
    (origin_lon origin_lat origin_height : ℝ) (preserve_rgb : Bool) :
    Except EcefError EcefOutput :=
  match inp.props.lookup "x" with
  | none => .error (EcefError.keyError "x")
  | some east =>
    match inp.props.lookup "y" with
    | none => .error (EcefError.keyError "y")
    | some north =>
      match inp.props.lookup "z" with
      | none => .error (EcefError.keyError "z")
      | some up =>
        match (PlyToLocal.zip3 east north up).map (fun p =>
            addVec (originEcef origin_lon origin_lat origin_height)
              (rotApply origin_lon origin_lat p)) with
        | [] => .error EcefError.emptyReduction
        | q :: qs =>
          .ok ⟨q :: qs, if preserve_rgb then rgbOutputs inp.colors else []⟩

/-- Modelled from the spec (section 4.1 step 1): the WGS84 origin formula
`Nrad = a / sqrt(1 - e2 * sin(lat)^2)`, `x0 = (Nrad + h) * cos(lat) * cos(lon)`,
`y0 = (Nrad + h) * cos(lat) * sin(lon)`, `z0 = (Nrad * (1 - e2) + h) * sin(lat)`,
with `a = 6378137.0` and `e2 = 6.69437999014e-3`, stated independently of the
converter for the refinement comparison of claim C1. -/
noncomputable def wgs84OriginSpec (lon lat hgt : ℝ) : ℝ × ℝ × ℝ :=
  ((6378137 / Real.sqrt (1 - 669437999014 / 10 ^ 14 * Real.sin (radiansOf lat) ^ 2) + hgt) *
     Real.cos (radiansOf lat) * Real.cos (radiansOf lon),
   (6378137 / Real.sqrt (1 - 669437999014 / 10 ^ 14 * Real.sin (radiansOf lat) ^ 2) + hgt) *
     Real.cos (radiansOf lat) * Real.sin (radiansOf lon),
   (6378137 / Real.sqrt (1 - 669437999014 / 10 ^ 14 * Real.sin (radiansOf lat) ^ 2) *
     (1 - 669437999014 / 10 ^ 14) + hgt) * Real.sin (radiansOf lat))

/-- A concrete input: the single ENU point (0, 0, 0). -/
def originOnlyInput : EcefInput :=
  ⟨[("x", [0]), ("y", [0]), ("z", [0])], []⟩

end LocalPlyToEcef

section Scratch
open PlyToLocal

example :
    convert_ply_to_local [⟨"x", "f8", [1]⟩, ⟨"y", "f8", [2]⟩] "auto" none 1000
      (fun v => v) = .error (ConvertError.missingField ["z"]) := rfl

example :
    convert_ply_to_local
      [⟨"x", "f8", []⟩, ⟨"y", "f8", []⟩, ⟨"z", "f8", []⟩] "auto" none 1000
      (fun v => v) = .error ConvertError.emptyInput := rfl

example : floorBaseVal [1500] 1000 = 1000 := by
  norm_num [floorBaseVal, listMean]

example : floorBaseVal [-1] 1000 = -1000 := by
  norm_num [floorBaseVal, listMean]

end Scratch

namespace PlyToLocal

theorem floorBase_pos (arr : List ℚ) (base : ℚ) (hb : 0 < base) :
    floorBase arr base = .ok (floorBaseVal arr base) := by
  unfold floorBase
  rw [if_neg (not_le.mpr hb)]

theorem floorBase_nonpos (arr : List ℚ) (base : ℚ) (hb : base ≤ 0) :
    floorBase arr base = .error ConvertError.invalidParameter := by
  unfold floorBase
  rw [if_pos hb]

theorem floorBaseVal_spec (arr : List ℚ) (base : ℚ) (hb : 0 < base) :
    (∃ k : ℤ, floorBaseVal arr base = (k : ℚ) * base) ∧
      floorBaseVal arr base ≤ listMean arr ∧
      listMean arr < floorBaseVal arr base + base := by
  refine ⟨⟨Int.floor (listMean arr / base), rfl⟩, ?_, ?_⟩
  · have h1 : ((Int.floor (listMean arr / base) : ℚ)) ≤ listMean arr / base :=
      Int.floor_le _
    have h2 := mul_le_mul_of_nonneg_right h1 hb.le
    rw [div_mul_cancel₀ _ hb.ne'] at h2
    exact h2
  · have h1 : listMean arr / base < (Int.floor (listMean arr / base) : ℚ) + 1 :=
      Int.lt_floor_add_one _
    have h2 := mul_lt_mul_of_pos_right h1 hb
    rw [div_mul_cancel₀ _ hb.ne'] at h2
    calc listMean arr < ((Int.floor (listMean arr / base) : ℚ) + 1) * base := h2
      _ = floorBaseVal arr base + base := by unfold floorBaseVal; ring

theorem computeShift_auto (x y z : List ℚ) (p0 : ℚ × ℚ × ℚ) (ms : Option (List ℚ))
    (base : ℚ) (hb : 0 < base) :
    computeShift x y z p0 "auto" ms base =
      .ok (floorBaseVal x base, floorBaseVal y base, floorBaseVal z base) := by
  unfold computeShift
  rw [if_pos rfl]
  simp only [floorBase_pos _ _ hb]
  rfl

theorem computeShift_auto_err (x y z : List ℚ) (p0 : ℚ × ℚ × ℚ)
    (ms : Option (List ℚ)) (base : ℚ) (hb : base ≤ 0) :
    computeShift x y z p0 "auto" ms base = .error ConvertError.invalidParameter := by
  unfold computeShift
  rw [if_pos rfl, floorBase_nonpos x base hb]
  rfl

theorem computeShift_manual_ok (x y z : List ℚ) (p0 : ℚ × ℚ × ℚ) (base : ℚ)
    (a b c : ℚ) :
    computeShift x y z p0 "manual" (some [a, b, c]) base = .ok (a, b, c) := rfl

theorem computeShift_first (x y z : List ℚ) (p0 : ℚ × ℚ × ℚ)
    (ms : Option (List ℚ)) (base : ℚ) :
    computeShift x y z p0 "first_point" ms base = .ok p0 := rfl

theorem computeShift_other (x y z : List ℚ) (p0 : ℚ × ℚ × ℚ)
    (ms : Option (List ℚ)) (base : ℚ) (mode : String)
    (h1 : mode ≠ "auto") (h2 : mode ≠ "manual") (h3 : mode ≠ "first_point") :
    computeShift x y z p0 mode ms base = .error ConvertError.invalidParameter := by
  unfold computeShift
  rw [if_neg h1, if_neg h2, if_neg h3]

theorem computeShift_invalid_iff (x y z : List ℚ) (p0 : ℚ × ℚ × ℚ) (mode : String)
    (ms : Option (List ℚ)) (base : ℚ) :
    computeShift x y z p0 mode ms base = .error ConvertError.invalidParameter ↔
      mode ∉ (["auto", "manual", "first_point"] : List String) ∨
      (mode = "auto" ∧ ¬ 0 < base) ∨
      (mode = "manual" ∧ ∀ l, ms = some l → l.length ≠ 3) := by
  by_cases hA : mode = "auto"
  · subst hA
    rcases le_or_lt base 0 with hb | hb
    · exact iff_of_true (computeShift_auto_err x y z p0 ms base hb)
        (Or.inr (Or.inl ⟨rfl, not_lt.mpr hb⟩))
    · refine iff_of_false (by rw [computeShift_auto x y z p0 ms base hb]; simp) ?_
      rintro (h | ⟨-, h⟩ | ⟨h, -⟩)
      · exact h (by simp)
      · exact h hb
      · exact absurd h (by decide)
  · by_cases hM : mode = "manual"
    · subst hM
      rcases ms with - | l
      · refine iff_of_true rfl (Or.inr (Or.inr ⟨rfl, fun l hl => nomatch hl⟩))
      · rcases l with - | ⟨a, l⟩
        · exact iff_of_true rfl (Or.inr (Or.inr ⟨rfl, by rintro l ⟨rfl⟩; simp⟩))
        · rcases l with - | ⟨b, l⟩
          · exact iff_of_true rfl (Or.inr (Or.inr ⟨rfl, by rintro l ⟨rfl⟩; simp⟩))
          · rcases l with - | ⟨c, l⟩
            · exact iff_of_true rfl (Or.inr (Or.inr ⟨rfl, by rintro l ⟨rfl⟩; simp⟩))
            · rcases l with - | ⟨d, l⟩
              · refine iff_of_false (by rw [computeShift_manual_ok]; simp) ?_
                rintro (h | ⟨h, -⟩ | ⟨-, h⟩)
                · exact h (by simp)
                · exact absurd h (by decide)
                · exact absurd rfl (h [a, b, c] rfl)
              · refine iff_of_true rfl (Or.inr (Or.inr ⟨rfl, ?_⟩))
                rintro l' ⟨rfl⟩
                simp
    · by_cases hF : mode = "first_point"
      · subst hF
        refine iff_of_false (by rw [computeShift_first]; simp) ?_
        rintro (h | ⟨h, -⟩ | ⟨h, -⟩)
        · exact h (by simp)
        · exact absurd h (by decide)
        · exact absurd h (by decide)
      · refine iff_of_true (computeShift_other x y z p0 ms base mode hA hM hF)
          (Or.inl ?_)
        simp [hA, hM, hF]

end PlyToLocal

namespace PlyToLocal

theorem convert_missing (vertex : List PlyProp) (mode : String)
    (ms : Option (List ℚ)) (base : ℚ) (f32 : ℚ → ℚ)
    (hm : missingOf vertex ≠ []) :
    convert_ply_to_local vertex mode ms base f32 =
      .error (ConvertError.missingField (missingOf vertex)) := by
  unfold convert_ply_to_local
  rw [if_neg hm]

theorem convert_empty (vertex : List PlyProp) (mode : String)
    (ms : Option (List ℚ)) (base : ℚ) (f32 : ℚ → ℚ)
    (hm : missingOf vertex = []) (hp : pointsOf vertex = []) :
    convert_ply_to_local vertex mode ms base f32 = .error ConvertError.emptyInput := by
  unfold convert_ply_to_local
  rw [if_pos hm, hp]
  rfl

theorem convert_okShape (vertex : List PlyProp) (mode : String)
    (ms : Option (List ℚ)) (base : ℚ) (f32 : ℚ → ℚ)
    (p0 : ℚ × ℚ × ℚ) (rest : List (ℚ × ℚ × ℚ)) (shift : ℚ × ℚ × ℚ)
    (hm : missingOf vertex = []) (hp : pointsOf vertex = p0 :: rest)
    (hs : computeShift (getProp vertex "x") (getProp vertex "y") (getProp vertex "z")
      p0 mode ms base = .ok shift) :
    convert_ply_to_local vertex mode ms base f32 =
      .ok ⟨mkVertexArray vertex ((p0 :: rest).map (subPoint shift)) f32, shift⟩ := by
  unfold convert_ply_to_local
  rw [if_pos hm, hp]
  simp only [afterPoints]
  rw [hs]
  rfl

theorem convert_shiftError (vertex : List PlyProp) (mode : String)
    (ms : Option (List ℚ)) (base : ℚ) (f32 : ℚ → ℚ)
    (p0 : ℚ × ℚ × ℚ) (rest : List (ℚ × ℚ × ℚ)) (e : ConvertError)
    (hm : missingOf vertex = []) (hp : pointsOf vertex = p0 :: rest)
    (hs : computeShift (getProp vertex "x") (getProp vertex "y") (getProp vertex "z")
      p0 mode ms base = .error e) :
    convert_ply_to_local vertex mode ms base f32 = .error e := by
  unfold convert_ply_to_local
  rw [if_pos hm, hp]
  simp only [afterPoints]
  rw [hs]
  rfl

theorem convert_ok_inv (vertex : List PlyProp) (mode : String)
    (ms : Option (List ℚ)) (base : ℚ) (f32 : ℚ → ℚ) (r : ConvertResult)
    (h : convert_ply_to_local vertex mode ms base f32 = .ok r) :
    missingOf vertex = [] ∧ ∃ p0 rest shift,
      pointsOf vertex = p0 :: rest ∧
      computeShift (getProp vertex "x") (getProp vertex "y") (getProp vertex "z")
        p0 mode ms base = .ok shift ∧
      r = ⟨mkVertexArray vertex ((p0 :: rest).map (subPoint shift)) f32, shift⟩ := by
  unfold convert_ply_to_local at h
  by_cases hm : missingOf vertex = []
  · refine ⟨hm, ?_⟩
    rw [if_pos hm] at h
    rcases hp : pointsOf vertex with - | ⟨p0, rest⟩
    · rw [hp] at h
      exact absurd h (by simp [afterPoints])
    · rw [hp] at h
      simp only [afterPoints] at h
      rcases hs : computeShift (getProp vertex "x") (getProp vertex "y")
          (getProp vertex "z") p0 mode ms base with e | shift
      · rw [hs] at h
        exact absurd h (by simp [afterShift])
      · rw [hs] at h
        simp only [afterShift] at h
        exact ⟨p0, rest, shift, rfl, hs, (Except.ok.inj h).symm⟩
  · rw [if_neg hm] at h
    exact absurd h (by simp)

end PlyToLocal

namespace PlyToLocal

theorem coordColumn_name (pl : List (ℚ × ℚ × ℚ)) (f32 : ℚ → ℚ) (p : PlyProp) :
    (coordColumn pl f32 p).name = p.name := by
  unfold coordColumn
  split_ifs with h1 h2 h3
  · exact h1.symm
  · exact h2.symm
  · exact h3.symm
  · rfl

theorem find?_map_name (t : PlyProp → PlyProp) (ht : ∀ p, (t p).name = p.name)
    (l : List PlyProp) (nm : String) :
    (l.map t).find? (fun p => p.name == nm) =
      (l.find? (fun p => p.name == nm)).map t := by
  induction l with
  | nil => rfl
  | cons p l ih =>
    rw [List.map_cons]
    by_cases hp : p.name = nm
    · have hb : (p.name == nm) = true := beq_iff_eq.mpr hp
      have hb2 : ((t p).name == nm) = true := by rw [ht p]; exact hb
      simp only [List.find?, hb, hb2]
      rfl
    · have hb : (p.name == nm) = false := by simpa using hp
      have hb2 : ((t p).name == nm) = false := by rw [ht p]; simpa using hp
      simp only [List.find?, hb, hb2]
      exact ih

theorem find?_mkVertexArray (vertex : List PlyProp) (pl : List (ℚ × ℚ × ℚ))
    (f32 : ℚ → ℚ) (nm : String) :
    (mkVertexArray vertex pl f32).find? (fun p => p.name == nm) =
      (vertex.find? (fun p => p.name == nm)).map (coordColumn pl f32) :=
  find?_map_name (coordColumn pl f32) (coordColumn_name pl f32) vertex nm

theorem find?_of_missingOf_nil (vertex : List PlyProp) (nm : String)
    (hm : missingOf vertex = []) (hnm : nm ∈ requiredFields) :
    ∃ p, vertex.find? (fun q => q.name == nm) = some p ∧ p.name = nm := by
  have h1 : ((vertex.map PlyProp.name).contains nm) = true := by
    by_contra hc
    have h2 : nm ∈ missingOf vertex := by
      unfold missingOf
      rw [List.mem_filter]
      exact ⟨hnm, by simpa using hc⟩
    rw [hm] at h2
    exact absurd h2 (List.not_mem_nil nm)
  have h2 : nm ∈ vertex.map PlyProp.name := by simpa using h1
  obtain ⟨p, hpmem, hpname⟩ := List.mem_map.mp h2
  have h3 : (vertex.find? (fun q => q.name == nm)).isSome := by
    rw [List.find?_isSome]
    exact ⟨p, hpmem, by simp [hpname]⟩
  obtain ⟨q, hq⟩ := Option.isSome_iff_exists.mp h3
  refine ⟨q, hq, ?_⟩
  have h4 := List.find?_some hq
  simpa using h4

theorem coordColumn_x (pl : List (ℚ × ℚ × ℚ)) (f32 : ℚ → ℚ) (p : PlyProp)
    (h : p.name = "x") :
    coordColumn pl f32 p = ⟨"x", "f4", pl.map (fun q => f32 q.1)⟩ := by
  unfold coordColumn
  rw [if_pos h]

theorem coordColumn_y (pl : List (ℚ × ℚ × ℚ)) (f32 : ℚ → ℚ) (p : PlyProp)
    (h : p.name = "y") :
    coordColumn pl f32 p = ⟨"y", "f4", pl.map (fun q => f32 q.2.1)⟩ := by
  unfold coordColumn
  rw [h]
  simp

theorem coordColumn_z (pl : List (ℚ × ℚ × ℚ)) (f32 : ℚ → ℚ) (p : PlyProp)
    (h : p.name = "z") :
    coordColumn pl f32 p = ⟨"z", "f4", pl.map (fun q => f32 q.2.2)⟩ := by
  unfold coordColumn
  rw [h]
  simp

theorem coordColumn_aux (pl : List (ℚ × ℚ × ℚ)) (f32 : ℚ → ℚ) (p : PlyProp)
    (hx : p.name ≠ "x") (hy : p.name ≠ "y") (hz : p.name ≠ "z") :
    coordColumn pl f32 p = p := by
  unfold coordColumn
  rw [if_neg hx, if_neg hy, if_neg hz]

theorem getProp_mk_x (vertex : List PlyProp) (pl : List (ℚ × ℚ × ℚ))
    (f32 : ℚ → ℚ) (hm : missingOf vertex = []) :
    getProp (mkVertexArray vertex pl f32) "x" = pl.map (fun q => f32 q.1) := by
  obtain ⟨p, hp, hpn⟩ := find?_of_missingOf_nil vertex "x" hm (by decide)
  unfold getProp
  rw [find?_mkVertexArray, hp, Option.map_some', coordColumn_x pl f32 p hpn]

theorem getProp_mk_y (vertex : List PlyProp) (pl : List (ℚ × ℚ × ℚ))
    (f32 : ℚ → ℚ) (hm : missingOf vertex = []) :
    getProp (mkVertexArray vertex pl f32) "y" = pl.map (fun q => f32 q.2.1) := by
  obtain ⟨p, hp, hpn⟩ := find?_of_missingOf_nil vertex "y" hm (by decide)
  unfold getProp
  rw [find?_mkVertexArray, hp, Option.map_some', coordColumn_y pl f32 p hpn]

theorem getProp_mk_z (vertex : List PlyProp) (pl : List (ℚ × ℚ × ℚ))
    (f32 : ℚ → ℚ) (hm : missingOf vertex = []) :
    getProp (mkVertexArray vertex pl f32) "z" = pl.map (fun q => f32 q.2.2) := by
  obtain ⟨p, hp, hpn⟩ := find?_of_missingOf_nil vertex "z" hm (by decide)
  unfold getProp
  rw [find?_mkVertexArray, hp, Option.map_some', coordColumn_z pl f32 p hpn]

theorem zip3_cons {α : Type} (a b c : α) (xs ys zs : List α) :
    zip3 (a :: xs) (b :: ys) (c :: zs) = (a, b, c) :: zip3 xs ys zs := rfl

theorem zip3_map_triple {α : Type} (l : List (α × α × α)) (f g h : α × α × α → α) :
    zip3 (l.map f) (l.map g) (l.map h) = l.map (fun q => (f q, g q, h q)) := by
  induction l with
  | nil => rfl
  | cons a l ih =>
    rw [List.map_cons, List.map_cons, List.map_cons, zip3_cons, ih, List.map_cons]

theorem pointsOf_mk (vertex : List PlyProp) (pl : List (ℚ × ℚ × ℚ))
    (f32 : ℚ → ℚ) (hm : missingOf vertex = []) :
    pointsOf (mkVertexArray vertex pl f32) =
      pl.map (fun q => (f32 q.1, f32 q.2.1, f32 q.2.2)) := by
  unfold pointsOf
  rw [getProp_mk_x vertex pl f32 hm, getProp_mk_y vertex pl f32 hm,
    getProp_mk_z vertex pl f32 hm]
  exact zip3_map_triple pl _ _ _

theorem getDtype_mk (vertex : List PlyProp) (pl : List (ℚ × ℚ × ℚ))
    (f32 : ℚ → ℚ) (nm : String) (hm : missingOf vertex = [])
    (hnm : nm ∈ requiredFields) :
    getDtype (mkVertexArray vertex pl f32) nm = "f4" := by
  obtain ⟨p, hp, hpn⟩ := find?_of_missingOf_nil vertex nm hm hnm
  unfold getDtype
  rw [find?_mkVertexArray, hp, Option.map_some']
  have h3 : nm = "x" ∨ nm = "y" ∨ nm = "z" := by
    simpa [requiredFields] using hnm
  rcases h3 with rfl | rfl | rfl
  · rw [coordColumn_x pl f32 p hpn]
  · rw [coordColumn_y pl f32 p hpn]
  · rw [coordColumn_z pl f32 p hpn]

end PlyToLocal

namespace PlyToLocal

/-- C2: for every non-empty point array and every `auto_base > 0`, the shift
computed in auto mode satisfies, for each axis independently,
`shift_axis = floor(mean(axis)/auto_base) * auto_base`; hence it is an integer
multiple of `auto_base` and `shift_axis ≤ mean(axis) < shift_axis + auto_base`. -/
theorem auto_shift_floored_mean (vertex : List PlyProp) (ms : Option (List ℚ))
    (base : ℚ) (f32 : ℚ → ℚ) (p0 : ℚ × ℚ × ℚ) (rest : List (ℚ × ℚ × ℚ))
    (hb : 0 < base) (hm : missingOf vertex = [])
    (hp : pointsOf vertex = p0 :: rest) :
    ∃ r, convert_ply_to_local vertex "auto" ms base f32 = .ok r ∧
      (r.shift.1 = ((Int.floor (listMean (getProp vertex "x") / base) : ℤ) : ℚ) * base ∧
        (∃ k : ℤ, r.shift.1 = (k : ℚ) * base) ∧
        r.shift.1 ≤ listMean (getProp vertex "x") ∧
        listMean (getProp vertex "x") < r.shift.1 + base) ∧
      (r.shift.2.1 = ((Int.floor (listMean (getProp vertex "y") / base) : ℤ) : ℚ) * base ∧
        (∃ k : ℤ, r.shift.2.1 = (k : ℚ) * base) ∧
        r.shift.2.1 ≤ listMean (getProp vertex "y") ∧
        listMean (getProp vertex "y") < r.shift.2.1 + base) ∧
      (r.shift.2.2 = ((Int.floor (listMean (getProp vertex "z") / base) : ℤ) : ℚ) * base ∧
        (∃ k : ℤ, r.shift.2.2 = (k : ℚ) * base) ∧
        r.shift.2.2 ≤ listMean (getProp vertex "z") ∧
        listMean (getProp vertex "z") < r.shift.2.2 + base) := by
  refine ⟨_, convert_okShape vertex "auto" ms base f32 p0 rest
      (floorBaseVal (getProp vertex "x") base, floorBaseVal (getProp vertex "y") base,
        floorBaseVal (getProp vertex "z") base) hm hp
      (computeShift_auto _ _ _ p0 ms base hb), ?_, ?_, ?_⟩
  · obtain ⟨hk, hle, hlt⟩ := floorBaseVal_spec (getProp vertex "x") base hb
    exact ⟨rfl, hk, hle, hlt⟩
  · obtain ⟨hk, hle, hlt⟩ := floorBaseVal_spec (getProp vertex "y") base hb
    exact ⟨rfl, hk, hle, hlt⟩
  · obtain ⟨hk, hle, hlt⟩ := floorBaseVal_spec (getProp vertex "z") base hb
    exact ⟨rfl, hk, hle, hlt⟩

/-- C3: in every mode, every stored local point plus the shift recovers the
global point, up to the bound `tol` of the float32 storage cast `f32`
(exact, i.e. `tol = 0`, before the cast). -/
theorem local_plus_shift_recovers_global (vertex : List PlyProp) (mode : String)
    (ms : Option (List ℚ)) (base : ℚ) (f32 : ℚ → ℚ) (tol : ℚ)
    (r : ConvertResult) (i : ℕ) (p : ℚ × ℚ × ℚ)
    (hf : ∀ v : ℚ, |f32 v - v| ≤ tol)
    (h : convert_ply_to_local vertex mode ms base f32 = .ok r)
    (hi : (pointsOf vertex)[i]? = some p) :
    ∃ q, (pointsOf r.vertexArray)[i]? = some q ∧
      |q.1 + r.shift.1 - p.1| ≤ tol ∧
      |q.2.1 + r.shift.2.1 - p.2.1| ≤ tol ∧
      |q.2.2 + r.shift.2.2 - p.2.2| ≤ tol := by
  obtain ⟨hm, p0, rest, shift, hp, hs, hr⟩ := convert_ok_inv vertex mode ms base f32 r h
  subst hr
  refine ⟨(f32 (p.1 - shift.1), f32 (p.2.1 - shift.2.1), f32 (p.2.2 - shift.2.2)),
    ?_, ?_, ?_, ?_⟩
  · show (pointsOf (mkVertexArray vertex ((p0 :: rest).map (subPoint shift)) f32))[i]? = _
    rw [pointsOf_mk vertex _ f32 hm, ← hp, List.map_map, List.getElem?_map, hi]
    rfl
  · show |f32 (p.1 - shift.1) + shift.1 - p.1| ≤ tol
    have he : f32 (p.1 - shift.1) + shift.1 - p.1 =
        f32 (p.1 - shift.1) - (p.1 - shift.1) := by ring
    rw [he]
    exact hf _
  · show |f32 (p.2.1 - shift.2.1) + shift.2.1 - p.2.1| ≤ tol
    have he : f32 (p.2.1 - shift.2.1) + shift.2.1 - p.2.1 =
        f32 (p.2.1 - shift.2.1) - (p.2.1 - shift.2.1) := by ring
    rw [he]
    exact hf _
  · show |f32 (p.2.2 - shift.2.2) + shift.2.2 - p.2.2| ≤ tol
    have he : f32 (p.2.2 - shift.2.2) + shift.2.2 - p.2.2 =
        f32 (p.2.2 - shift.2.2) - (p.2.2 - shift.2.2) := by ring
    rw [he]
    exact hf _

/-- C6: a point array with all coordinate fields but zero points fails with
the EmptyInput error, and an input lacking a required coordinate field fails
with the MissingField error naming exactly the missing fields (the check
that runs first); an error means no output value is produced at all. -/
theorem selector_empty_and_missing (vertex : List PlyProp) (mode : String)
    (ms : Option (List ℚ)) (base : ℚ) (f32 : ℚ → ℚ) :
    (missingOf vertex = [] → pointsOf vertex = [] →
      convert_ply_to_local vertex mode ms base f32 = .error ConvertError.emptyInput) ∧
    (missingOf vertex ≠ [] →
      convert_ply_to_local vertex mode ms base f32 =
        .error (ConvertError.missingField (missingOf vertex))) :=
  ⟨convert_empty vertex mode ms base f32, convert_missing vertex mode ms base f32⟩

/-- C7: on a well-formed point array (coordinate fields present, at least one
point), the selector fails with the InvalidParameter error exactly when the
mode is unknown, or the mode is auto with a non-positive base, or the mode is
manual without exactly three supplied shift values. -/
theorem selector_invalid_parameter_iff (vertex : List PlyProp) (mode : String)
    (ms : Option (List ℚ)) (base : ℚ) (f32 : ℚ → ℚ) (p0 : ℚ × ℚ × ℚ)
    (rest : List (ℚ × ℚ × ℚ)) (hm : missingOf vertex = [])
    (hp : pointsOf vertex = p0 :: rest) :
    convert_ply_to_local vertex mode ms base f32 =
        .error ConvertError.invalidParameter ↔
      mode ∉ (["auto", "manual", "first_point"] : List String) ∨
      (mode = "auto" ∧ ¬ 0 < base) ∨
      (mode = "manual" ∧ ∀ l, ms = some l → l.length ≠ 3) := by
  rw [← computeShift_invalid_iff (getProp vertex "x") (getProp vertex "y")
    (getProp vertex "z") p0 mode ms base]
  unfold convert_ply_to_local
  rw [if_pos hm, hp]
  simp only [afterPoints]
  rcases hs : computeShift (getProp vertex "x") (getProp vertex "y")
      (getProp vertex "z") p0 mode ms base with e | s
  · simp [afterShift]
  · simp [afterShift]

/-- C8: in first_point mode the shift is exactly the first input point, the
first local point is exactly (0,0,0), and (as the storage cast is exact at 0)
the first stored point is (0,0,0) as well. -/
theorem first_point_shift_exact (vertex : List PlyProp) (ms : Option (List ℚ))
    (base : ℚ) (f32 : ℚ → ℚ) (p0 : ℚ × ℚ × ℚ) (rest : List (ℚ × ℚ × ℚ))
    (hm : missingOf vertex = []) (hp : pointsOf vertex = p0 :: rest) :
    ∃ r, convert_ply_to_local vertex "first_point" ms base f32 = .ok r ∧
      r.shift = p0 ∧
      ((p0 :: rest).map (subPoint r.shift)).head? = some (0, 0, 0) ∧
      (f32 0 = 0 → (pointsOf r.vertexArray).head? = some (0, 0, 0)) := by
  refine ⟨_, convert_okShape vertex "first_point" ms base f32 p0 rest p0 hm hp
      (computeShift_first _ _ _ p0 ms base), rfl, ?_, ?_⟩
  · show ((p0 :: rest).map (subPoint p0)).head? = some (0, 0, 0)
    rw [List.map_cons, List.head?_cons]
    congr 1
    show (p0.1 - p0.1, p0.2.1 - p0.2.1, p0.2.2 - p0.2.2) = (0, 0, 0)
    simp
  · intro hf0
    show (pointsOf (mkVertexArray vertex
        ((p0 :: rest).map (subPoint p0)) f32)).head? = some (0, 0, 0)
    rw [pointsOf_mk vertex _ f32 hm, List.map_cons, List.map_cons, List.head?_cons]
    congr 1
    show (f32 (p0.1 - p0.1), f32 (p0.2.1 - p0.2.1), f32 (p0.2.2 - p0.2.2)) = (0, 0, 0)
    simp [hf0]

/-- C9: on every successful run the coordinate columns of the output are
stored with dtype `f4` (32-bit float), every non-coordinate property is
copied through unchanged (name, dtype and values), and the shift does not
depend on the storage cast (the shift and all intermediate arithmetic stay in
the exact float64 model). -/
theorem coord_f32_and_aux_passthrough (vertex : List PlyProp) (mode : String)
    (ms : Option (List ℚ)) (base : ℚ) (f32 : ℚ → ℚ) (r : ConvertResult)
    (h : convert_ply_to_local vertex mode ms base f32 = .ok r) :
    (∀ nm, nm ∈ requiredFields → getDtype r.vertexArray nm = "f4") ∧
    (∀ p, p ∈ vertex → p.name ∉ requiredFields → p ∈ r.vertexArray) ∧
    (∃ r2, convert_ply_to_local vertex mode ms base (fun v => v) = .ok r2 ∧
      r2.shift = r.shift) := by
  obtain ⟨hm, p0, rest, shift, hp, hs, hr⟩ := convert_ok_inv vertex mode ms base f32 r h
  subst hr
  refine ⟨?_, ?_, ?_⟩
  · intro nm hnm
    exact getDtype_mk vertex _ f32 nm hm hnm
  · intro p hpv hname
    have hx : p.name ≠ "x" := fun hc => hname (by rw [hc]; decide)
    have hy : p.name ≠ "y" := fun hc => hname (by rw [hc]; decide)
    have hz : p.name ≠ "z" := fun hc => hname (by rw [hc]; decide)
    show p ∈ mkVertexArray vertex ((p0 :: rest).map (subPoint shift)) f32
    unfold mkVertexArray
    have hcc := coordColumn_aux ((p0 :: rest).map (subPoint shift)) f32 p hx hy hz
    exact hcc ▸ List.mem_map_of_mem (coordColumn _ f32) hpv
  · exact ⟨⟨mkVertexArray vertex ((p0 :: rest).map (subPoint shift)) (fun v => v), shift⟩,
      convert_okShape vertex mode ms base (fun v => v) p0 rest shift hm hp hs, rfl⟩

theorem convert_congr_computeShift (vertex : List PlyProp) (mode : String)
    (f32 : ℚ → ℚ) (msA msB : Option (List ℚ)) (bA bB : ℚ)
    (hcs : ∀ p0, computeShift (getProp vertex "x") (getProp vertex "y")
        (getProp vertex "z") p0 mode msA bA =
      computeShift (getProp vertex "x") (getProp vertex "y")
        (getProp vertex "z") p0 mode msB bB) :
    convert_ply_to_local vertex mode msA bA f32 =
      convert_ply_to_local vertex mode msB bB f32 := by
  unfold convert_ply_to_local
  by_cases hm : missingOf vertex = []
  · rw [if_pos hm, if_pos hm]
    rcases hp : pointsOf vertex with - | ⟨p0, rest⟩
    · rfl
    · simp only [afterPoints]
      rw [hcs p0]
  · rw [if_neg hm, if_neg hm]

/-- C10: the result (output array and shift alike) never depends on the
parameters of unselected modes: auto ignores the manual shift, manual ignores
the auto base (even a zero or negative one, raising no error), and
first_point ignores both. -/
theorem unselected_mode_params_ignored (vertex : List PlyProp) (f32 : ℚ → ℚ)
    (ms1 ms2 ms : Option (List ℚ)) (b b1 b2 : ℚ) :
    convert_ply_to_local vertex "auto" ms1 b f32 =
        convert_ply_to_local vertex "auto" ms2 b f32 ∧
      convert_ply_to_local vertex "manual" ms b1 f32 =
        convert_ply_to_local vertex "manual" ms b2 f32 ∧
      convert_ply_to_local vertex "first_point" ms1 b1 f32 =
        convert_ply_to_local vertex "first_point" ms2 b2 f32 :=
  ⟨convert_congr_computeShift vertex "auto" f32 ms1 ms2 b b (fun _ => rfl),
   convert_congr_computeShift vertex "manual" f32 ms ms b1 b2 (fun _ => rfl),
   convert_congr_computeShift vertex "first_point" f32 ms1 ms2 b1 b2 (fun _ => rfl)⟩

end PlyToLocal

namespace PlyToLocal

theorem auto_shift_floored_mean_witness :
    ∃ r, convert_ply_to_local sampleVertex "auto" none 1000 (fun v => v) = .ok r ∧
      (∃ k : ℤ, r.shift.1 = (k : ℚ) * 1000) ∧
      r.shift.1 ≤ listMean (getProp sampleVertex "x") ∧
      listMean (getProp sampleVertex "x") < r.shift.1 + 1000 := by
  obtain ⟨r, h1, ⟨-, hk, hle, hlt⟩, -, -⟩ := auto_shift_floored_mean sampleVertex
    none 1000 (fun v => v) (1500, -1, 10) [] (by norm_num) (by decide) (by decide)
  exact ⟨r, h1, hk, hle, hlt⟩

theorem local_plus_shift_recovers_global_witness :
    ∃ r q, convert_ply_to_local sampleVertex "first_point" none 1000 (fun v => v) =
        .ok r ∧
      (pointsOf r.vertexArray)[0]? = some q ∧
      |q.1 + r.shift.1 - 1500| ≤ 0 ∧ |q.2.1 + r.shift.2.1 - (-1)| ≤ 0 ∧
      |q.2.2 + r.shift.2.2 - 10| ≤ 0 := by
  have h : convert_ply_to_local sampleVertex "first_point" none 1000 (fun v => v) =
      .ok ⟨mkVertexArray sampleVertex
        ([((1500 : ℚ), (-1 : ℚ), (10 : ℚ))].map (subPoint (1500, -1, 10)))
        (fun v => v), (1500, -1, 10)⟩ :=
    convert_okShape sampleVertex "first_point" none 1000 (fun v => v)
      (1500, -1, 10) [] (1500, -1, 10) (by decide) (by decide)
      (computeShift_first _ _ _ _ none 1000)
  obtain ⟨q, h1, h2, h3, h4⟩ := local_plus_shift_recovers_global sampleVertex
    "first_point" none 1000 (fun v => v) 0 _ 0 (1500, -1, 10)
    (fun v => by simp) h (by decide)
  exact ⟨_, q, h, h1, h2, h3, h4⟩

theorem selector_empty_and_missing_witness :
    convert_ply_to_local emptyVertex "auto" none 1000 (fun v => v) =
        .error ConvertError.emptyInput ∧
      convert_ply_to_local missingZVertex "auto" none 1000 (fun v => v) =
        .error (ConvertError.missingField ["z"]) := by
  constructor
  · exact (selector_empty_and_missing emptyVertex "auto" none 1000
      (fun v => v)).1 (by decide) (by decide)
  · exact (selector_empty_and_missing missingZVertex "auto" none 1000
      (fun v => v)).2 (by decide)

theorem selector_invalid_parameter_iff_witness :
    convert_ply_to_local sampleVertex "bogus" none 1000 (fun v => v) =
      .error ConvertError.invalidParameter := by
  refine (selector_invalid_parameter_iff sampleVertex "bogus" none 1000 (fun v => v)
    (1500, -1, 10) [] (by decide) (by decide)).mpr ?_
  exact Or.inl (by decide)

theorem first_point_shift_exact_witness :
    ∃ r, convert_ply_to_local sampleVertex "first_point" none 1000 (fun v => v) =
        .ok r ∧
      r.shift = (1500, -1, 10) ∧
      (pointsOf r.vertexArray).head? = some (0, 0, 0) := by
  obtain ⟨r, h1, h2, -, h4⟩ := first_point_shift_exact sampleVertex none 1000
    (fun v => v) (1500, -1, 10) [] (by decide) (by decide)
  exact ⟨r, h1, h2, h4 rfl⟩

theorem coord_f32_and_aux_passthrough_witness :
    ∃ r, convert_ply_to_local sampleVertexRgb "first_point" none 1000 (fun v => v) =
        .ok r ∧
      getDtype r.vertexArray "x" = "f4" ∧
      (⟨"red", "u1", [7]⟩ : PlyProp) ∈ r.vertexArray := by
  have h : convert_ply_to_local sampleVertexRgb "first_point" none 1000 (fun v => v) =
      .ok ⟨mkVertexArray sampleVertexRgb
        ([((1500 : ℚ), (-1 : ℚ), (10 : ℚ))].map (subPoint (1500, -1, 10)))
        (fun v => v), (1500, -1, 10)⟩ :=
    convert_okShape sampleVertexRgb "first_point" none 1000 (fun v => v)
      (1500, -1, 10) [] (1500, -1, 10) (by decide) (by decide)
      (computeShift_first _ _ _ _ none 1000)
  obtain ⟨hd, haux, -⟩ := coord_f32_and_aux_passthrough sampleVertexRgb "first_point"
    none 1000 (fun v => v) _ h
  exact ⟨_, h, hd "x" (by decide), haux ⟨"red", "u1", [7]⟩ (by decide) (by decide)⟩

end PlyToLocal

namespace LocalPlyToEcef

/-- C4: a floating color channel with maximum at most 1.01 is scaled by 255,
clamped to [0, 255] and truncated; one with larger maximum is clamped and
truncated without scaling; an integer channel is clamped and cast. -/
theorem rgb_normalizer_cases (vals : List ℚ) (ivals : List ℤ) (i : ℕ) (v : ℚ)
    (w : ℤ) :
    (listMax vals ≤ 101 / 100 → vals[i]? = some v →
      (normalizeChannel (ChannelData.floatData vals))[i]? =
        some (Int.floor (min 255 (max 0 (v * 255)))).toNat) ∧
    (101 / 100 < listMax vals → vals[i]? = some v →
      (normalizeChannel (ChannelData.floatData vals))[i]? =
        some (Int.floor (min 255 (max 0 v))).toNat) ∧
    (ivals[i]? = some w →
      (normalizeChannel (ChannelData.intData ivals))[i]? =
        some (min 255 (max 0 w)).toNat) := by
  refine ⟨?_, ?_, ?_⟩
  · intro hmax hi
    simp only [normalizeChannel]
    rw [if_pos hmax, List.map_map, List.getElem?_map, hi]
    rfl
  · intro hmax hi
    simp only [normalizeChannel]
    rw [if_neg (not_le.mpr hmax), List.getElem?_map, hi]
    rfl
  · intro hi
    simp only [normalizeChannel]
    rw [List.getElem?_map, hi]
    rfl

theorem rgb_normalizer_cases_witness :
    (normalizeChannel (ChannelData.floatData [1 / 2]))[0]? = some 127 ∧
    (normalizeChannel (ChannelData.intData [0, 128, 255, 300]))[3]? = some 255 := by
  constructor
  · have h := (rgb_normalizer_cases [1 / 2] [] 0 (1 / 2) 0).1
      (by norm_num [listMax]) rfl
    rw [h]
    have h1 : ((1 : ℚ) / 2 * 255) = 255 / 2 := by norm_num
    have h2 : max (0 : ℚ) (255 / 2) = 255 / 2 := max_eq_right (by norm_num)
    have h3 : min (255 : ℚ) (255 / 2) = 255 / 2 := min_eq_right (by norm_num)
    have h4 : Int.floor ((255 : ℚ) / 2) = 127 :=
      Int.floor_eq_iff.mpr ⟨by norm_num, by norm_num⟩
    rw [h1, h2, h3, h4]
    rfl
  · have h := (rgb_normalizer_cases [] [0, 128, 255, 300] 3 0 300).2.2 rfl
    rw [h]
    decide

/-- C5: the ENU-to-ECEF converter succeeds exactly when all three coordinate
properties are present and the point array has at least one row; the only
failures are the missing-property KeyError and the empty-array reduction
error. -/
theorem ecef_error_conditions (inp : EcefInput) (lon lat hgt : ℝ) (b : Bool) :
    (∃ out, local_ply_to_ecef_las inp lon lat hgt b = .ok out) ↔
      ∃ e n u, inp.props.lookup "x" = some e ∧ inp.props.lookup "y" = some n ∧
        inp.props.lookup "z" = some u ∧ PlyToLocal.zip3 e n u ≠ [] := by
  unfold local_ply_to_ecef_las
  rcases hx : inp.props.lookup "x" with - | e
  · simp [hx]
  · rcases hy : inp.props.lookup "y" with - | n
    · simp [hy]
    · rcases hz : inp.props.lookup "z" with - | u
      · simp [hz]
      · rcases hm : (PlyToLocal.zip3 e n u).map (fun p =>
            addVec (originEcef lon lat hgt) (rotApply lon lat p)) with - | ⟨q, qs⟩
        · have hzip : PlyToLocal.zip3 e n u = [] := List.map_eq_nil_iff.mp hm
          simp [hzip]
        · have hzip : PlyToLocal.zip3 e n u ≠ [] := by
            intro hc
            rw [hc] at hm
            exact absurd hm.symm (List.cons_ne_nil q qs)
          simp only [hm]
          simp [hzip]

/-- C1: for an origin with latitude in (-90, 90), longitude in (-180, 180] and
any height, and a non-empty ENU array, the converter outputs per point
`origin_ecef + R * (east, north, up)` with `origin_ecef` given by the WGS84
formula of the spec; in particular the single point (0,0,0) maps exactly
(hence within 1e-6 m) to the origin ECEF position. -/
theorem enu_to_ecef_formula (inp : EcefInput) (lon lat hgt : ℝ) (b : Bool)
    (east north up : List ℝ)
    (hlat1 : -90 < lat) (hlat2 : lat < 90) (hlon1 : -180 < lon) (hlon2 : lon ≤ 180)
    (hx : inp.props.lookup "x" = some east)
    (hy : inp.props.lookup "y" = some north)
    (hz : inp.props.lookup "z" = some up)
    (hne : PlyToLocal.zip3 east north up ≠ []) :
    ∃ out, local_ply_to_ecef_las inp lon lat hgt b = .ok out ∧
      out.points = (PlyToLocal.zip3 east north up).map
        (fun p => addVec (wgs84OriginSpec lon lat hgt) (rotApply lon lat p)) ∧
      (PlyToLocal.zip3 east north up = [(0, 0, 0)] →
        out.points = [wgs84OriginSpec lon lat hgt]) := by
  have hspec : originEcef lon lat hgt = wgs84OriginSpec lon lat hgt := rfl
  unfold local_ply_to_ecef_las
  rw [hx, hy, hz]
  rcases hm : (PlyToLocal.zip3 east north up).map (fun p =>
      addVec (originEcef lon lat hgt) (rotApply lon lat p)) with - | ⟨q, qs⟩
  · exact absurd (List.map_eq_nil_iff.mp hm) hne
  · simp only [hm]
    refine ⟨⟨q :: qs, if b then rgbOutputs inp.colors else []⟩, rfl, ?_, ?_⟩
    · show q :: qs = _
      rw [← hm, hspec]
    · intro h0
      show q :: qs = [wgs84OriginSpec lon lat hgt]
      rw [← hm, h0, List.map_cons, List.map_nil]
      congr 1
      show addVec (originEcef lon lat hgt) (rotApply lon lat (0, 0, 0)) =
        wgs84OriginSpec lon lat hgt
      rw [hspec]
      unfold addVec rotApply
      simp

end LocalPlyToEcef

namespace LocalPlyToEcef

theorem enu_to_ecef_formula_witness :
    ∃ out, local_ply_to_ecef_las originOnlyInput 116.4075 39.904 1 true = .ok out ∧
      out.points = [wgs84OriginSpec 116.4075 39.904 1] := by
  obtain ⟨out, h1, -, h3⟩ := enu_to_ecef_formula originOnlyInput 116.4075 39.904 1
    true [0] [0] [0] (by norm_num) (by norm_num) (by norm_num) (by norm_num)
    rfl rfl rfl (by simp [PlyToLocal.zip3])
  exact ⟨out, h1, h3 rfl⟩

end LocalPlyToEcef
